import Mathlib

/-!
Verification development for the adaptive radix tree (ART) in `src/art/mod.rs`
of the CDS repository.  The Rust code is shallowly embedded: machine bytes
(`u8`) become `Fin 256`, raw tagged pointers become an inductive handle type
carrying the tag bits and the pointee separately, heap mutation becomes
functional update, and every operation that can panic (`todo!()`, slice-index
out of bounds, `clone_from_slice` length mismatch, `panic!`, dereferencing a
mistagged or null pointer) is modelled in a small result type with an explicit
`panic` outcome.  `while` loops are embedded as structurally recursive
functions on an explicit fuel argument that is always large enough (each loop
iteration consumes at least one key byte).
-/

/-- A key byte (`u8` in the source). -/
abbrev Byte := Fin 256

/-- `PREFIX_LEN` from the source: capacity of the inline compressed path. -/
def PREFIX_LEN : Nat := 12

/-- `NodeHeader { len, prefix }`: logical compressed-path length plus the
inline 12-byte buffer.  The buffer is physically `[u8; 12]`; in this model it
is a list of length 12 (the source default-constructs it from uninitialized
memory; the model uses zeros, and every read the source performs beyond the
initialized region is modelled as a panic where it is out of bounds). -/
structure NodeHeader where
  len : Nat
  prefixBytes : List Byte
deriving Repr, DecidableEq

/-- The type tag stored in the low bits of a child pointer (`NodeType`). -/
inductive NTag where
  | value
  | node4
  | node16
  | node48
  | node256
deriving Repr, DecidableEq

mutual
/-- `Node<V>`: the tagged pointer.  `null` is the all-zero pointer; `ref t o`
is a pointer whose low bits hold tag `t` and whose pointee is `o`.  The tag
and the actual kind of the pointee are kept separate, exactly as in the
source, because nothing ties them together there: `extend`/`shrink` write the
old node type into the replacing pointer. -/
inductive NodeRef (V : Type) where
  | null : NodeRef V
  | ref : NTag → NObj V → NodeRef V

/-- The five heap object kinds: `NodeV` (terminal value with its full key)
and the four internal shapes.  `Node4`/`Node16` keep their sorted key array
and child array as logical lists of length `len` (the source only ever reads
`keys[..len]`/`children[..len]` for these two shapes).  `Node48` keeps its
occupancy `len`, its physical 256-entry byte-to-slot index table (sentinel
`0xff` = 255 for absent) and its physical 48-entry child array, because the
source reads physical slots beyond `len` after a removal.  `Node256` keeps
its occupancy `len` and physical 256-entry child array (`null` = absent). -/
inductive NObj (V : Type) where
  | value : List Byte → V → NObj V
  | n4 : NodeHeader → List Byte → List (NodeRef V) → NObj V
  | n16 : NodeHeader → List Byte → List (NodeRef V) → NObj V
  | n48 : NodeHeader → Nat → List Nat → List (NodeRef V) → NObj V
  | n256 : NodeHeader → Nat → List (NodeRef V) → NObj V
end

/-- Result of running a piece of Rust code: a value, or a panic/abort
(`todo!()`, `panic!`, out-of-bounds index, UB dereference). -/
inductive Res (α : Type) where
  | ok : α → Res α
  | panic : Res α
deriving Repr

/-- The kind a handle's tag ought to name for a given pointee. -/
def objKind {V : Type} : NObj V → NTag
  | .value _ _ => .value
  | .n4 _ _ _ => .node4
  | .n16 _ _ _ => .node16
  | .n48 _ _ _ _ => .node48
  | .n256 _ _ _ => .node256

/-- `Node::is_null`. -/
def NodeRef.isNull {V : Type} : NodeRef V → Bool
  | .null => true
  | .ref _ _ => false

/-- `Node::node_type()`: the low tag bits.  The null pointer's bits are zero,
which decodes to `NodeType::Value`. -/
def tagOfRef {V : Type} : NodeRef V → NTag
  | .null => .value
  | .ref t _ => t

/-- The header a fresh node carries (`NodeHeader::default()`): length 0; the
buffer bytes are uninitialized in the source and zero here (they are never
read while the length is 0). -/
def hdr0 : NodeHeader := { len := 0, prefixBytes := List.replicate PREFIX_LEN 0 }

/-- `NodeOps::header` for the four internal shapes (never called on a
terminal value in the source; that case returns the default header here). -/
def headerOf {V : Type} : NObj V → NodeHeader
  | .value _ _ => hdr0
  | .n4 hd _ _ => hd
  | .n16 hd _ _ => hd
  | .n48 hd _ _ _ => hd
  | .n256 hd _ _ => hd

/-- `NodeOps::is_full` for each shape (false on a terminal value, on which it
is never called). -/
def isFull {V : Type} : NObj V → Bool
  | .value _ _ => false
  | .n4 _ ks _ => ks.length == 4
  | .n16 _ ks _ => ks.length == 16
  | .n48 _ len _ _ => len == 48
  | .n256 _ len _ => len == 256

/-- Modelled from the spec: `crate::util::slice_insert` (module `util` is not
under `src/`; spec section 3 calls it shift-insert, maintaining sorted order).
Inserts `v` at position `i`, shifting the later elements right. -/
def slice_insert {α : Type} : List α → Nat → α → List α
  | l, 0, v => v :: l
  | [], _ + 1, v => [v]
  | x :: l, i + 1, v => x :: slice_insert l i v

/-- Modelled from the spec: `crate::util::slice_remove` (module `util` is not
under `src/`; spec section 3 requires removal to keep the array-based shapes
compact, i.e. left-shift over the removed slot).  It acts on the first `len`
slots of the physical array `phys`: the element at `idx` is removed and the
rest of the window shifts left one place; the physical slots at positions
`len - 1` and beyond keep their old contents (a shift does not clear them). -/
def slice_remove {α : Type} (phys : List α) (len idx : Nat) : List α :=
  (phys.take len).eraseIdx idx ++ phys.drop (len - 1)

/-- The scan loop shared verbatim by `Node4::insert` and `Node16::insert`:
walk the sorted key bytes; at the first strictly greater byte return the
insertion position; on an equal byte, and also when the loop falls off the
end of the keys, no position is produced (both return `Err(node)` in the
source — the fall-through arm is `Err(node)` as well). -/
def sortedInsertPos (b : Byte) : List Byte → Option Nat
  | [] => none
  | k :: ks =>
    if b.val < k.val then some 0
    else if b = k then none
    else (sortedInsertPos b ks).map (· + 1)

/-- `Node4::insert` on the logical key/child lists: shift-insert at the
position found by the scan, otherwise hand the node back as `Err`. -/
def node4Insert {V : Type} (ks : List Byte) (cs : List (NodeRef V)) (b : Byte)
    (nd : NodeRef V) : Except (NodeRef V) (List Byte × List (NodeRef V)) :=
  match sortedInsertPos b ks with
  | none => .error nd
  | some i => .ok (slice_insert ks i b, slice_insert cs i nd)

/-- `Node16::insert`: textually the same algorithm as `Node4::insert`. -/
def node16Insert {V : Type} (ks : List Byte) (cs : List (NodeRef V)) (b : Byte)
    (nd : NodeRef V) : Except (NodeRef V) (List Byte × List (NodeRef V)) :=
  match sortedInsertPos b ks with
  | none => .error nd
  | some i => .ok (slice_insert ks i b, slice_insert cs i nd)

/-- The linear scan of `Node4::lookup` / `Node16::lookup`: first key equal to
`b` selects the parallel child. -/
def scanLookup {V : Type} (b : Byte) : List Byte → List (NodeRef V) → Option (NodeRef V)
  | [], _ => none
  | _ :: _, [] => none
  | k :: ks, c :: cs => if b = k then some c else scanLookup b ks cs

/-- Writing through the `&mut` returned by `Node4::lookup_mut` /
`Node16::lookup_mut`: replace the child parallel to the first key equal to
`b`. -/
def scanSet {V : Type} (b : Byte) (c : NodeRef V) : List Byte → List (NodeRef V) → List (NodeRef V)
  | [], cs => cs
  | _ :: _, [] => []
  | k :: ks, x :: cs => if b = k then c :: cs else x :: scanSet b c ks cs

/-- `Node48::insert`: reject if the index-table entry for `b` is not the
0xff sentinel; otherwise append the child at slot `len`, record the slot in
the table, and bump `len`. -/
def node48Insert {V : Type} (len : Nat) (idx : List Nat) (cs : List (NodeRef V))
    (b : Byte) (nd : NodeRef V) :
    Except (NodeRef V) (Nat × List Nat × List (NodeRef V)) :=
  if idx.getD b.val 255 ≠ 255 then .error nd
  else .ok (len + 1, idx.set b.val len, cs.set len nd)

/-- `Node48::lookup`: read the index table; sentinel 0xff means absent,
otherwise return the physical child slot it names. -/
def node48Lookup {V : Type} (idx : List Nat) (cs : List (NodeRef V)) (b : Byte) :
    Option (NodeRef V) :=
  let i := idx.getD b.val 255
  if i = 255 then none else some (cs.getD i .null)

/-- `Node48::remove`: sentinel means `Err(())`; otherwise remove the named
slot from the first `len` children via `slice_remove` (compacting shift),
write the sentinel for `b`, and decrement `len`.  The index-table entries of
the other bytes are left untouched. -/
def node48Remove {V : Type} (len : Nat) (idx : List Nat) (cs : List (NodeRef V))
    (b : Byte) :
    Except Unit (NodeRef V × (Nat × List Nat × List (NodeRef V))) :=
  let i := idx.getD b.val 255
  if i = 255 then .error ()
  else .ok (cs.getD i .null, (len - 1, idx.set b.val 255, slice_remove cs len i))

/-- `Node256::insert`: a null slot receives the child; an occupied slot
rejects.  The source does not increment `len` here. -/
def node256Insert {V : Type} (len : Nat) (cs : List (NodeRef V)) (b : Byte)
    (nd : NodeRef V) : Except (NodeRef V) (Nat × List (NodeRef V)) :=
  if (cs.getD b.val .null).isNull then .ok (len, cs.set b.val nd)
  else .error nd

/-- `Node256::lookup`: direct slot read, null means absent. -/
def node256Lookup {V : Type} (cs : List (NodeRef V)) (b : Byte) : Option (NodeRef V) :=
  let c := cs.getD b.val .null
  if c.isNull then none else some c

/-- `NodeOps::lookup` dispatched over the internal shapes (the engine only
calls it through the `Left` arm of `deref`, so the terminal-value case is
unreachable; it is `none` here). -/
def nodeLookup {V : Type} : NObj V → Byte → Option (NodeRef V)
  | .value _ _, _ => none
  | .n4 _ ks cs, b => scanLookup b ks cs
  | .n16 _ ks cs, b => scanLookup b ks cs
  | .n48 _ _ idx cs, b => node48Lookup idx cs b
  | .n256 _ _ cs, b => node256Lookup cs b

/-- Writing a new handle through the `&mut` obtained from `lookup_mut` for
byte `b` (used when the engine descends and later replaces the child in
place). -/
def nodeSetChild {V : Type} : NObj V → Byte → NodeRef V → NObj V
  | .value k v, _, _ => .value k v
  | .n4 hd ks cs, b, c => .n4 hd ks (scanSet b c ks cs)
  | .n16 hd ks cs, b, c => .n16 hd ks (scanSet b c ks cs)
  | .n48 hd len idx cs, b, c => .n48 hd len idx (cs.set (idx.getD b.val 255) c)
  | .n256 hd len cs, b, c => .n256 hd len (cs.set b.val c)

/-- `NodeOps::insert` dispatched over the internal shapes (never called on a
terminal value; that case rejects here). -/
def nodeInsert {V : Type} : NObj V → Byte → NodeRef V → Except (NodeRef V) (NObj V)
  | .value k v, _, nd => let _ := (k, v); .error nd
  | .n4 hd ks cs, b, nd =>
    (node4Insert ks cs b nd).map fun p => .n4 hd p.1 p.2
  | .n16 hd ks cs, b, nd =>
    (node16Insert ks cs b nd).map fun p => .n16 hd p.1 p.2
  | .n48 hd len idx cs, b, nd =>
    (node48Insert len idx cs b nd).map fun p => .n48 hd p.1 p.2.1 p.2.2
  | .n256 hd len cs, b, nd =>
    (node256Insert len cs b nd).map fun p => .n256 hd p.1 p.2

/-- `From<Node4> for Node16`: header, sorted keys and children are copied as
they are (the logical lists coincide). -/
def n16ofN4 {V : Type} (hd : NodeHeader) (ks : List Byte) (cs : List (NodeRef V)) : NObj V :=
  .n16 hd ks cs

/-- Builds the 256-entry index table of `From<Node16> for Node48`: entry
`key` receives the position of `key` in the sorted key array. -/
def buildIdxGo (t : List Nat) : List Byte → Nat → List Nat
  | [], _ => t
  | k :: ks, i => buildIdxGo (t.set k.val i) ks (i + 1)

/-- `From<Node16> for Node48`: walk the sorted keys filling the index table,
copy the 16 children into the first physical slots, keep header and `len`. -/
def n48ofN16 {V : Type} (hd : NodeHeader) (ks : List Byte) (cs : List (NodeRef V)) : NObj V :=
  .n48 hd ks.length (buildIdxGo (List.replicate 256 255) ks 0)
    (cs ++ List.replicate (48 - cs.length) .null)

/-- `From<Node48> for Node256`: each byte with a non-sentinel index-table
entry gets the named physical child at its direct slot. -/
def n256ofN48 {V : Type} (hd : NodeHeader) (len : Nat) (idx : List Nat)
    (cs : List (NodeRef V)) : NObj V :=
  .n256 hd len
    ((List.range 256).map fun b =>
      let i := idx.getD b 255
      if i = 255 then NodeRef.null else cs.getD i .null)

/-- `Node::extend`: no-op on a value-tagged handle (including null, whose
zero tag bits decode to `Value`) and on a non-full node; a full node is
converted to the next shape, and — exactly as in the source — the replacing
pointer is tagged `pointer | node_type`, where `node_type` is the tag read
from the handle BEFORE the conversion.  Dereferencing a handle whose tag does
not match its pointee reinterprets memory as the wrong type; that is a panic
here.  A full `Node256` panics (`"Node256 cannot be extended."`). -/
def extend {V : Type} : NodeRef V → Res (NodeRef V)
  | .null => .ok .null
  | .ref t o =>
    if t = .value then .ok (.ref t o)
    else if t ≠ objKind o then .panic
    else if isFull o then
      match o with
      | .value _ _ => .panic
      | .n4 hd ks cs => .ok (.ref t (n16ofN4 hd ks cs))
      | .n16 hd ks cs => .ok (.ref t (n48ofN16 hd ks cs))
      | .n48 hd len idx cs => .ok (.ref t (n256ofN48 hd len idx cs))
      | .n256 _ _ _ => .panic
    else .ok (.ref t o)

/-- The two outcomes of `Node::deref`: an internal node (`Left`) or a
terminal value (`Right`). -/
inductive DerefView (V : Type) where
  | internal : NObj V → DerefView V
  | leaf : List Byte → V → DerefView V

/-- `Node::deref`: dispatch on the tag bits and reinterpret the pointee as
the type the tag names.  A null pointer (tag `Value`, address 0) or a handle
whose tag disagrees with its pointee dereferences invalid memory: panic. -/
def derefNode {V : Type} : NodeRef V → Res (DerefView V)
  | .null => .panic
  | .ref t o =>
    if t = objKind o then
      match o with
      | .value k v => .ok (.leaf k v)
      | o => .ok (.internal o)
    else .panic

/-- `NodeOps::get_any_child`: every one of the four implementations in the
source is `todo!()`, so any call panics. -/
def getAnyChild {V : Type} (o : NObj V) : Res (NObj V) :=
  let _ := o
  Res.panic

/-- The inline loop of `Node::prefix_match`: iterate `index` over
`[0, hlen)`, reading `header.prefix.get_unchecked(..hlen)` — for
`hlen > 12` the read at position 12 is past the end of the 12-byte buffer
(panic here), and `keys[depth + index]` panics when it is out of bounds.  A
mismatch returns the absolute depth at which it occurred.  `rem` counts the
remaining iterations (`rem = hlen - i` initially `hlen`). -/
def pmLoop (keys pb : List Byte) (depth : Nat) : Nat → Nat → Res (Option Nat)
  | _, 0 => .ok none
  | i, r + 1 =>
    match pb.get? i with
    | none => .panic
    | some pbyte =>
      match keys.get? (depth + i) with
      | none => .panic
      | some kbyte =>
        if kbyte = pbyte then pmLoop keys pb depth (i + 1) r
        else .ok (some (depth + i))

/-- `Node::prefix_match(keys, node, depth)`: run the inline loop over the
header's `len` bytes; `ok (some d)` models `Err(d)` (mismatch at absolute
depth `d`), `ok none` models `Ok(())`.  When `len > PREFIX_LEN` the source
then fetches a witness leaf via `get_any_child` — unimplemented (`todo!()`),
so that branch panics (its `while depth < depth + header.len` loop bound
would in any case never be reached false). -/
def prefixMatch {V : Type} (keys : List Byte) (o : NObj V) (depth : Nat) : Res (Option Nat) :=
  let hd := headerOf o
  match pmLoop keys hd.prefixBytes depth 0 hd.len with
  | .ok none =>
    if hd.len > PREFIX_LEN then
      match getAnyChild o with
      | .ok _ => .panic
      | .panic => .panic
    else .ok none
  | r => r

/-- The prefix-split branch of `ART::insert` (taken when the matched prefix
length differs from the stopping node's header length).  Transcribed step by
step, in the order the source executes:
1. `&keys[depth..depth + prefix_len]` — panics if the range exceeds the key;
2. `inter_node.header.prefix.clone_from_slice(..)` — the destination is the
   whole 12-byte buffer, so this panics whenever `prefix_len ≠ 12`;
3. the old node's header is shortened (`len -= prefix_len`; the byte copy
   runs from offset 0 of a clone of the buffer, leaving the bytes unchanged),
   the boxed intermediate node is spliced in, and then
   `node.header().prefix[depth + prefix_len]` indexes the 12-byte buffer at
   `depth + prefix_len ≥ 12` — out of bounds, panic.
Every path through this branch therefore panics before the two child inserts
(which would in any case go through `inter_node_ptr`, a pointer into the
stack slot the intermediate node was already moved out of). -/
def artSplit (keys : List Byte) (depth plen : Nat) : Res Unit :=
  if depth + plen > keys.length then .panic
  else if plen ≠ PREFIX_LEN then .panic
  else .panic

/-- The code after the traversal loop of `ART::insert`: grow the stopping
node if it is full, then either report `Err(value)` (terminal value reached),
insert the new terminal child directly (`prefix_len == header.len` — the
result of that insert is only `debug_assert!`ed, so a rejection is silently
dropped and `Ok(())` is still returned), or take the prefix-split branch.
`keys[depth]` panics when `depth` is out of bounds (e.g. an empty key). -/
def artInsertFinish {V : Type} (keys : List Byte) (v : V) (cur : NodeRef V)
    (depth plen : Nat) : Res (NodeRef V × Option V) :=
  match extend cur with
  | .panic => .panic
  | .ok cur2 =>
    match derefNode cur2 with
    | .panic => .panic
    | .ok (.leaf _ _) => .ok (cur2, some v)
    | .ok (.internal o) =>
      match keys.get? depth with
      | none => .panic
      | some b =>
        let nv : NodeRef V := .ref .value (.value keys v)
        if plen = (headerOf o).len then
          match nodeInsert o b nv with
          | .ok o2 => .ok (.ref (tagOfRef cur2) o2, none)
          | .error _ => .ok (cur2, none)
        else
          match artSplit keys depth plen with
          | .panic => .panic
          | .ok _ => .ok (cur2, none)

/-- The traversal loop of `ART::insert`: while `depth < keys.len()`, stop on
a terminal value (`left_or!(.., break)`, with `prefix_len` still 0 — every
assignment to it is immediately followed by `break`), stop on a prefix
mismatch with `prefix_len = common_depth - depth`, or look up `keys[depth]`:
descend with `depth += 1 + header.len` if the child exists, else stop with
`prefix_len = header.len`.  The child slot the engine descended through is
rebuilt around the recursive result (the source mutates it in place through a
`NonNull` pointer).  `fuel` dominates the iteration count (each iteration
requires `depth < keys.length` and increases `depth`), so the 0 case is
unreachable from `artInsert`. -/
def artInsertGo {V : Type} (keys : List Byte) (v : V) :
    Nat → NodeRef V → Nat → Res (NodeRef V × Option V)
  | 0, _, _ => .panic
  | f + 1, cur, depth =>
    if depth < keys.length then
      match derefNode cur with
      | .panic => .panic
      | .ok (.leaf _ _) => artInsertFinish keys v cur depth 0
      | .ok (.internal o) =>
        match prefixMatch keys o depth with
        | .panic => .panic
        | .ok (some cd) => artInsertFinish keys v cur depth (cd - depth)
        | .ok none =>
          let p := (headerOf o).len
          match keys.get? depth with
          | none => .panic
          | some kb =>
            match nodeLookup o kb with
            | some child =>
              match artInsertGo keys v f child (depth + 1 + p) with
              | .panic => .panic
              | .ok (child2, r) =>
                .ok (.ref (tagOfRef cur) (nodeSetChild o kb child2), r)
            | none => artInsertFinish keys v cur depth p
    else artInsertFinish keys v cur depth 0

/-- `ART::insert` on already-encoded key bytes: run the traversal loop from
the root at depth 0.  The result pairs the new root with `none` for `Ok(())`
or `some v` for `Err(v)` (the value handed back unconsumed). -/
def artInsert {V : Type} (t : NodeRef V) (keys : List Byte) (v : V) :
    Res (NodeRef V × Option V) :=
  artInsertGo keys v (keys.length + 1) t 0

/-- `ART::new`: the root is a default `Node256` (largest shape, empty,
default header). -/
def artNew (V : Type) : NodeRef V :=
  .ref .node256 (.n256 hdr0 0 (List.replicate 256 .null))

/-- The traversal loop of `ART::lookup`: while `depth < keys.len()`, a
terminal value returns `None` (`left_or!(.., return None)`); otherwise skip
the header (`depth += header.len`), then `keys[depth]` (panic when out of
bounds) selects the next child or the lookup misses.  After the loop, a
terminal value yields its stored value only if its full key equals the query;
an internal node yields `None`. -/
def artLookupGo {V : Type} (keys : List Byte) :
    Nat → NodeRef V → Nat → Res (Option V)
  | 0, _, _ => .panic
  | f + 1, cur, depth =>
    if depth < keys.length then
      match derefNode cur with
      | .panic => .panic
      | .ok (.leaf _ _) => .ok none
      | .ok (.internal o) =>
        let d2 := depth + (headerOf o).len
        match keys.get? d2 with
        | none => .panic
        | some kb =>
          match nodeLookup o kb with
          | some child => artLookupGo keys f child (d2 + 1)
          | none => .ok none
    else
      match derefNode cur with
      | .panic => .panic
      | .ok (.internal _) => .ok none
      | .ok (.leaf ks w) => .ok (if ks = keys then some w else none)

/-- `ART::lookup` on already-encoded key bytes. -/
def artLookup {V : Type} (t : NodeRef V) (keys : List Byte) : Res (Option V) :=
  artLookupGo keys (keys.length + 1) t 0

/-- `ART::remove`: the body in the source is `todo!()` — every call panics,
for every map state and key. -/
def artRemove {V : Type} (t : NodeRef V) (keys : List Byte) : Res (Except Unit V) :=
  let _ := (t, keys)
  Res.panic

/-- What a root slot may hold in any state the public operations can reach:
nothing, or a terminal value whose stored key begins with the slot's byte. -/
def SlotOk {V : Type} (b : Fin 256) (r : NodeRef V) : Prop :=
  r = .null ∨ ∃ ks w, r = NodeRef.ref .value (.value ks w) ∧ ks.head? = some b

/-- The reachable-state invariant: the root is the original `Node256` with
its default header and never-incremented occupancy 0, its child array has
256 slots, and every slot satisfies `SlotOk`.  (No execution from `ART::new`
ever gives an internal node a nonzero header length or a non-terminal child:
the only code that does either is the prefix-split branch, which always
panics.) -/
def RootInv {V : Type} (t : NodeRef V) : Prop :=
  ∃ ch : List (NodeRef V),
    t = .ref .node256 (.n256 hdr0 0 ch) ∧ ch.length = 256 ∧
    ∀ b : Fin 256, SlotOk b (ch.getD b.val .null)

/-- Key presence in a map state: the slot named by the key's first byte holds
a terminal value storing exactly this key.  Under `Inv` this coincides with
"some insert of this key succeeded" (and nothing is ever removed —
`ART::remove` never completes). -/
def presentKey {V : Type} (t : NodeRef V) : List Byte → Prop
  | [] => False
  | b :: rest =>
    ∃ ch w, t = .ref .node256 (.n256 hdr0 0 ch) ∧
      ch.getD b.val .null = NodeRef.ref .value (.value (b :: rest) w)

/-- The map states reachable through the public interface, starting from
`ART::new`.  `insert` yields a successor state whenever it returns (either
`Ok(())` or `Err(v)`) rather than panicking; `lookup` is read-only and
`remove` never returns (`todo!()`), so neither contributes transitions. -/
inductive Reach {V : Type} : NodeRef V → Prop where
  | init : Reach (artNew V)
  | insertStep (t t2 : NodeRef V) (ks : List Byte) (v : V) (r : Option V) :
      Reach t → artInsert t ks v = .ok (t2, r) → Reach t2

/-! Concrete fixtures used by the claim theorems below. -/

/-- C1 fixture: the terminal value stored by inserting key `[97, 98]`
("ab") with value 1. -/
def c1leaf : NodeRef Nat := .ref .value (.value [97, 98] 1)

/-- C1 fixture: the map state after that insert. -/
def c1tree : NodeRef Nat :=
  .ref .node256 (.n256 hdr0 0 ((List.replicate 256 .null).set 97 c1leaf))

/-- C2 fixture: the terminal value stored by inserting key `[97, 97]`
("aa") with value 1. -/
def c2leaf : NodeRef Nat := .ref .value (.value [97, 97] 1)

/-- C2 fixture: the map state after inserting `[97, 97] -> 1`. -/
def c2tree1 : NodeRef Nat :=
  .ref .node256 (.n256 hdr0 0 ((List.replicate 256 .null).set 97 c2leaf))

/-- C2 fixture: the map state after the rejected second insert (the slot is
written back with the same terminal value through the descent pointer). -/
def c2tree2 : NodeRef Nat :=
  .ref .node256 (.n256 hdr0 0
    (((List.replicate 256 .null).set 97 c2leaf).set 97 c2leaf))

/-- C4 fixture: a terminal value with key `[0, 1, 2, 3]`. -/
def c4leaf : NodeRef Nat := .ref .value (.value [0, 1, 2, 3] 7)

/-- C4 fixture: a shape-4 node with a two-byte compressed path `[1, 2]`
(remaining buffer bytes unused) and one child keyed `3`. -/
def c4inner : NodeRef Nat :=
  .ref .node4 (.n4 { len := 2, prefixBytes := [1, 2, 0, 0, 0, 0, 0, 0, 0, 0, 0, 0] }
    [3] [c4leaf])

/-- C4 fixture: a tree whose root has `c4inner` at slot 0, so that inserting
`[0, 1, 3]` diverges after matching 1 of the 2 compressed bytes. -/
def c4tree : NodeRef Nat :=
  .ref .node256 (.n256 hdr0 0 ((List.replicate 256 .null).set 0 c4inner))

/-- C5 fixture: a node whose header length 13 exceeds the 12-byte inline
buffer (the case the lazy-verification branch exists for). -/
def c5obj : NObj Nat :=
  .n4 { len := 13, prefixBytes := List.replicate 12 0 } [] []

/-- C6 fixture: an arbitrary handle to insert. -/
def c6new : NodeRef Nat := .ref .value (.value [5] 5)

/-- C6 fixture: the child of a one-entry shape-4 node with key byte 1. -/
def c6old : NodeRef Nat := .ref .value (.value [1] 1)

/-- C7 fixture: a full shape-4 node (4 children). -/
def c7n4 : NObj Nat :=
  .n4 hdr0 [0, 1, 2, 3]
    [.ref .value (.value [0] 0), .ref .value (.value [1] 1),
     .ref .value (.value [2] 2), .ref .value (.value [3] 3)]

/-- C9 fixtures: three distinct children. -/
def c9c0 : NodeRef Nat := .ref .value (.value [0] 10)

/-- C9 fixture: the child originally stored for byte 1. -/
def c9c1 : NodeRef Nat := .ref .value (.value [1] 11)

/-- C9 fixture: the child originally stored for byte 2. -/
def c9c2 : NodeRef Nat := .ref .value (.value [2] 12)

/-- C9 fixture: index table of a shape-48 node holding bytes 0, 1, 2 at
slots 0, 1, 2 (inserted in that order into a default node). -/
def c9idx3 : List Nat := (((List.replicate 256 255).set 0 0).set 1 1).set 2 2

/-- C9 fixture: the matching physical child array. -/
def c9ch3 : List (NodeRef Nat) :=
  (((List.replicate 48 .null).set 0 c9c0).set 1 c9c1).set 2 c9c2

/-! Helper lemmas about list reads used by the invariant proofs. -/

theorem getD_set_self {α : Type} (l : List α) (i : Nat) (x d : α) (h : i < l.length) :
    (l.set i x).getD i d = x := by
  induction l generalizing i with
  | nil => simp at h
  | cons a t ih =>
    cases i with
    | zero => rfl
    | succ n => exact ih n (Nat.lt_of_succ_lt_succ h)

theorem getD_set_ne {α : Type} (l : List α) {i j : Nat} (x d : α) (h : i ≠ j) :
    (l.set i x).getD j d = l.getD j d := by
  induction l generalizing i j with
  | nil => rfl
  | cons a t ih =>
    cases i with
    | zero =>
      cases j with
      | zero => exact absurd rfl h
      | succ m => rfl
    | succ n =>
      cases j with
      | zero => rfl
      | succ m => exact ih (fun hh => h (congrArg Nat.succ hh))

theorem getD_replicate {α : Type} (x : α) (n i : Nat) :
    (List.replicate n x).getD i x = x := by
  induction n generalizing i with
  | zero => rfl
  | succ m ih =>
    cases i with
    | zero => rfl
    | succ k => exact ih k

/-! Characterizations of `ART::insert` / `ART::lookup` on states satisfying
the reachable-state shape (root `Node256`, default header, terminal-value
children only). -/

theorem artInsert_nil {V : Type} (ch : List (NodeRef V)) (v : V) :
    artInsert (.ref .node256 (.n256 hdr0 0 ch)) [] v = .panic := rfl

theorem artInsert_freeSlot {V : Type} (ch : List (NodeRef V)) (b : Byte)
    (rest : List Byte) (v : V) (hslot : ch.getD b.val .null = .null) :
    artInsert (.ref .node256 (.n256 hdr0 0 ch)) (b :: rest) v =
      .ok (.ref .node256 (.n256 hdr0 0
        (ch.set b.val (.ref .value (.value (b :: rest) v)))), none) := by
  rw [List.getD_eq_getElem?_getD] at hslot
  simp [artInsert, artInsertGo, derefNode, objKind, prefixMatch, pmLoop, headerOf, hdr0,
        nodeLookup, node256Lookup, hslot, NodeRef.isNull, artInsertFinish, extend, isFull,
        nodeInsert, node256Insert, tagOfRef, PREFIX_LEN, Except.map]

theorem artInsert_occupiedSlot {V : Type} (ch : List (NodeRef V)) (b : Byte)
    (rest : List Byte) (v : V) (ks : List Byte) (w : V)
    (hslot : ch.getD b.val .null = .ref .value (.value ks w)) :
    artInsert (.ref .node256 (.n256 hdr0 0 ch)) (b :: rest) v =
      .ok (.ref .node256 (.n256 hdr0 0
        (ch.set b.val (.ref .value (.value ks w)))), some v) := by
  rw [List.getD_eq_getElem?_getD] at hslot
  cases rest with
  | nil =>
    simp [artInsert, artInsertGo, derefNode, objKind, prefixMatch, pmLoop, headerOf, hdr0,
          nodeLookup, node256Lookup, hslot, NodeRef.isNull, artInsertFinish, extend, isFull,
          nodeInsert, node256Insert, tagOfRef, PREFIX_LEN, nodeSetChild]
  | cons r0 rs =>
    simp [artInsert, artInsertGo, derefNode, objKind, prefixMatch, pmLoop, headerOf, hdr0,
          nodeLookup, node256Lookup, hslot, NodeRef.isNull, artInsertFinish, extend, isFull,
          nodeInsert, node256Insert, tagOfRef, PREFIX_LEN, nodeSetChild]

theorem artLookup_nil {V : Type} (ch : List (NodeRef V)) :
    artLookup (.ref .node256 (.n256 hdr0 0 ch)) [] = .ok none := rfl

theorem artLookup_freeSlot {V : Type} (ch : List (NodeRef V)) (b : Byte)
    (rest : List Byte) (hslot : ch.getD b.val .null = .null) :
    artLookup (.ref .node256 (.n256 hdr0 0 ch)) (b :: rest) = .ok none := by
  rw [List.getD_eq_getElem?_getD] at hslot
  simp [artLookup, artLookupGo, derefNode, objKind, headerOf, hdr0,
        nodeLookup, node256Lookup, hslot, NodeRef.isNull]

theorem artLookup_single {V : Type} (ch : List (NodeRef V)) (b : Byte)
    (ks : List Byte) (w : V)
    (hslot : ch.getD b.val .null = .ref .value (.value ks w)) :
    artLookup (.ref .node256 (.n256 hdr0 0 ch)) [b] =
      .ok (if ks = [b] then some w else none) := by
  rw [List.getD_eq_getElem?_getD] at hslot
  simp [artLookup, artLookupGo, derefNode, objKind, headerOf, hdr0,
        nodeLookup, node256Lookup, hslot, NodeRef.isNull]

theorem artLookup_long {V : Type} (ch : List (NodeRef V)) (b r0 : Byte)
    (rs : List Byte) (ks : List Byte) (w : V)
    (hslot : ch.getD b.val .null = .ref .value (.value ks w)) :
    artLookup (.ref .node256 (.n256 hdr0 0 ch)) (b :: r0 :: rs) = .ok none := by
  rw [List.getD_eq_getElem?_getD] at hslot
  simp [artLookup, artLookupGo, derefNode, objKind, headerOf, hdr0,
        nodeLookup, node256Lookup, hslot, NodeRef.isNull]

/-! The reachable-state invariant. -/

theorem rootInv_new {V : Type} : RootInv (artNew V) :=
  ⟨List.replicate 256 .null, rfl, List.length_replicate 256 _, fun _ => Or.inl (getD_replicate _ _ _)⟩

theorem rootInv_insert {V : Type} (t t2 : NodeRef V) (ks : List Byte) (v : V)
    (r : Option V) (hI : RootInv t) (h : artInsert t ks v = .ok (t2, r)) :
    RootInv t2 := by
  obtain ⟨ch, rfl, hlen, hslots⟩ := hI
  cases ks with
  | nil => rw [artInsert_nil] at h; cases h
  | cons b rest =>
    rcases hslots b with hnull | ⟨ks2, w, hleaf, hhead⟩
    · rw [artInsert_freeSlot ch b rest v hnull] at h
      obtain ⟨rfl, -⟩ : _ ∧ _ := by
        have := h
        simp only [Res.ok.injEq, Prod.mk.injEq] at this
        exact ⟨this.1.symm, this.2⟩
      refine ⟨_, rfl, by simp [hlen], fun c => ?_⟩
      rcases eq_or_ne c b with rfl | hne
      · rw [getD_set_self _ _ _ _ (by rw [hlen]; exact c.isLt)]
        exact Or.inr ⟨c :: rest, v, rfl, rfl⟩
      · rw [getD_set_ne _ _ _ (fun hh => hne (Fin.ext hh.symm))]
        exact hslots c
    · rw [artInsert_occupiedSlot ch b rest v ks2 w hleaf] at h
      obtain ⟨rfl, -⟩ : _ ∧ _ := by
        have := h
        simp only [Res.ok.injEq, Prod.mk.injEq] at this
        exact ⟨this.1.symm, this.2⟩
      refine ⟨_, rfl, by simp [hlen], fun c => ?_⟩
      rcases eq_or_ne c b with rfl | hne
      · rw [getD_set_self _ _ _ _ (by rw [hlen]; exact c.isLt)]
        exact Or.inr ⟨ks2, w, rfl, hhead⟩
      · rw [getD_set_ne _ _ _ (fun hh => hne (Fin.ext hh.symm))]
        exact hslots c

theorem reach_rootInv {V : Type} (t : NodeRef V) (h : Reach t) : RootInv t := by
  induction h with
  | init => exact rootInv_new
  | insertStep t t2 ks v r _ hins ih => exact rootInv_insert t t2 ks v r ih hins

/-! The claim theorems. -/

/-- Claim C1 (code_bug evidence): the round-trip at the map interface fails.
Starting from the empty map, inserting the two-byte key `[97, 98]` ("ab")
with value 1 succeeds (returns `Ok`, storing the terminal value), yet looking
the same key up afterwards returns `None` instead of the inserted value: the
lookup loop reaches the terminal node while key bytes remain and bails out
with `None`. -/
theorem art_c1 :
    artInsert (artNew Nat) [97, 98] 1 = Res.ok (c1tree, none) ∧
    artLookup c1tree [97, 98] = Res.ok none :=
  ⟨rfl, rfl⟩

/-- Claim C2 (code_bug evidence): spec scenario 2 fails on its last step.
Inserting `[97, 97]` ("aa") with value 1 succeeds; a second insert of the
same key with value 2 is indeed rejected with `Err(2)` and leaves the map
unchanged (the slot is written back with the same terminal value), but the
previously stored value is NOT retrievable: lookup of `[97, 97]` returns
`None` both before and after the rejected insert. -/
theorem art_c2 :
    artInsert (artNew Nat) [97, 97] 1 = Res.ok (c2tree1, none) ∧
    artInsert c2tree1 [97, 97] 2 = Res.ok (c2tree2, some 2) ∧
    artLookup c2tree2 [97, 97] = Res.ok none ∧
    artLookup c2tree1 [97, 97] = Res.ok none :=
  ⟨rfl, rfl, rfl, rfl⟩

/-- Claim C3 (code_bug evidence): `ART::remove` is `todo!()` — it panics on
every call instead of returning `Err(())` for an absent key (here: any key on
the empty map). -/
theorem art_c3 : artRemove (artNew Nat) [97] = Res.panic := rfl

/-- Claim C4 (code_bug evidence): the prefix-split branch does not perform
the described split; it panics.  In a tree whose root has, at slot 0, a
shape-4 node with compressed path `[1, 2]`, inserting key `[0, 1, 3]`
diverges after matching 1 of the 2 compressed bytes (`matched_len = 1 <
2 = header length`), and the insert panics in `clone_from_slice` (copying a
1-byte slice into the intermediate node's whole 12-byte buffer) before any
splicing happens. -/
theorem art_c4 : artInsert c4tree [0, 1, 3] 9 = Res.panic := rfl

/-- Claim C5 (code_bug evidence): prefix matching on a node whose header
length 13 exceeds 12 does not compare the overflow bytes against a terminal
value — it panics.  The inline loop runs over all 13 positions, so with the
first 12 bytes matching it reads past the end of the 12-byte buffer; and the
lazy branch would call `get_any_child`, whose every implementation is
`todo!()`. -/
theorem art_c5 : prefixMatch (List.replicate 13 0) c5obj 0 = Res.panic := rfl

/-- Claim C6 (code_bug evidence): `Node4::insert` (and, identically,
`Node16::insert`) rejects a byte that has no child whenever the byte is
greater than every stored key byte, because the scan falls through to
`Err(node)`.  In particular inserting into an EMPTY shape-4 node (occupancy
0, not full, byte 0 absent) is rejected, as is inserting byte 5 into a
non-full shape-4 node holding only byte 1. -/
theorem art_c6 :
    node4Insert ([] : List Byte) ([] : List (NodeRef Nat)) 0 c6new = Except.error c6new ∧
    node4Insert [1] [c6old] 5 c6new = Except.error c6new ∧
    node16Insert ([] : List Byte) ([] : List (NodeRef Nat)) 0 c6new = Except.error c6new :=
  ⟨rfl, rfl, rfl⟩

/-- Claim C7 (code_bug evidence): growing a full shape-4 node produces a
handle whose pointee is a shape-16 object but whose tag bits still say
shape-4, because `extend` writes `pointer | node_type` with the tag captured
before the conversion.  The conversion itself does preserve the header and
the byte-to-child mapping, but the replacing handle's tag does not identify
the new larger shape. -/
theorem art_c7 :
    extend (NodeRef.ref .node4 c7n4) =
      Res.ok (.ref .node4 (.n16 hdr0 [0, 1, 2, 3]
        [.ref .value (.value [0] 0), .ref .value (.value [1] 1),
         .ref .value (.value [2] 2), .ref .value (.value [3] 3)])) ∧
    objKind (NObj.n16 hdr0 [0, 1, 2, 3]
        [.ref .value (.value [0] (0 : Nat)), .ref .value (.value [1] 1),
         .ref .value (.value [2] 2), .ref .value (.value [3] 3)]) = .node16 ∧
    NTag.node4 ≠ NTag.node16 :=
  ⟨rfl, rfl, by decide⟩

/-- Claim C9 (code_bug evidence): the frame property of shape-48 removal
fails.  Build a shape-48 node by inserting children `c9c0, c9c1, c9c2` for
bytes 0, 1, 2 (slots 0, 1, 2); before removal, byte 1 resolves to `c9c1`.
After `remove(0)` succeeds (occupancy drops to 2), the children array has
been compacted but the index table still maps byte 1 to slot 1, which now
holds `c9c2`: lookup of byte 1 returns a different handle than before. -/
theorem art_c9 :
    node48Insert 0 (List.replicate 256 255) (List.replicate 48 .null) 0 c9c0 =
      Except.ok (1, (List.replicate 256 255).set 0 0, (List.replicate 48 .null).set 0 c9c0) ∧
    node48Insert 1 ((List.replicate 256 255).set 0 0) ((List.replicate 48 .null).set 0 c9c0) 1 c9c1 =
      Except.ok (2, ((List.replicate 256 255).set 0 0).set 1 1,
        ((List.replicate 48 .null).set 0 c9c0).set 1 c9c1) ∧
    node48Insert 2 (((List.replicate 256 255).set 0 0).set 1 1)
        (((List.replicate 48 .null).set 0 c9c0).set 1 c9c1) 2 c9c2 =
      Except.ok (3, c9idx3, c9ch3) ∧
    node48Lookup c9idx3 c9ch3 1 = some c9c1 ∧
    node48Remove 3 c9idx3 c9ch3 0 =
      Except.ok (c9c0, (2, c9idx3.set 0 255, slice_remove c9ch3 3 0)) ∧
    node48Lookup (c9idx3.set 0 255) (slice_remove c9ch3 3 0) 1 = some c9c2 ∧
    c9c2 ≠ c9c1 :=
  ⟨rfl, rfl, rfl, rfl, rfl, rfl, by simp [c9c2, c9c1]⟩

/-- Claim C8: on every reachable map state, looking up a key that is not
present returns `None` as an ordinary value — the traversal completes
without panicking and misses cleanly, whatever the key's length or shared
bytes with stored keys. -/
theorem art_c8 {V : Type} (t : NodeRef V) (ks : List Byte) (hR : Reach t)
    (habs : ¬ presentKey t ks) : artLookup t ks = Res.ok none := by
  obtain ⟨ch, rfl, hlen, hslots⟩ := reach_rootInv t hR
  cases ks with
  | nil => exact artLookup_nil ch
  | cons b rest =>
    rcases hslots b with hnull | ⟨ks2, w, hleaf, hhead⟩
    · exact artLookup_freeSlot ch b rest hnull
    · cases rest with
      | nil =>
        rw [artLookup_single ch b ks2 w hleaf]
        have hne : ks2 ≠ [b] := by
          intro hh
          exact habs ⟨ch, w, rfl, by rw [hleaf, hh]⟩
        simp [hne]
      | cons r0 rs => exact artLookup_long ch b r0 rs ks2 w hleaf

/-- Witness for C8 at a concrete input: the key `[0]` is not present in the
freshly created map, and its lookup returns `ok none`. -/
theorem art_c8_w : artLookup (artNew Nat) [0] = Res.ok none :=
  art_c8 (artNew Nat) [0] Reach.init (by
    rintro ⟨ch, w, hch, hslot⟩
    injection hch with htag hobj
    injection hobj with h1 h2 h3
    subst h3
    rw [getD_replicate] at hslot
    simp at hslot)

/-- Claim C10: on every reachable map state, looking up a key whose encoded
byte sequence is empty returns `None`: the traversal loop never runs and the
root handle always addresses the original internal `Node256`, never a
terminal value. -/
theorem art_c10 {V : Type} (t : NodeRef V) (hR : Reach t) :
    artLookup t [] = Res.ok none := by
  obtain ⟨ch, rfl, -, -⟩ := reach_rootInv t hR
  exact artLookup_nil ch

/-- Witness for C10 at a concrete input: the freshly created map. -/
theorem art_c10_w : artLookup (artNew Nat) [] = Res.ok none :=
  art_c10 (artNew Nat) Reach.init
